import Mathlib

/-!
Shallow embedding of the Minutron time-tracking core.

Sources embedded:
  * the SQL migration defining the tables `profiles`, `user_roles`, `projects`,
    `project_assignments`, `time_entries`, the generated column
    `duration_minutes`, and the row-level-security (RLS) policies;
  * the RLS fix migration for `projects` (semantically the same SELECT policy);
  * `UserDashboard.tsx` (`fetchProjects`, `fetchTimeEntries`, `startTimer`,
    `stopTimer`, `createManualEntry`);
  * `AdminDashboard.tsx` (`assignUserToProject`, `toggleProjectStatus`,
    `fetchTimeEntriesSummary`).

Timestamps are modelled as epoch seconds (`Int`).  User and row ids are `Nat`.
Postgres's `INTEGER GENERATED ALWAYS AS (EXTRACT(EPOCH FROM (end_time -
start_time)) / 60) STORED` computes a numeric value and casts it to INTEGER,
which rounds half away from zero; `roundHalfAwayDiv60` reproduces that.
-/

namespace Minutron

/-- `profiles` row: user identity plus optional name fields. -/
structure Profile where
  user_id : Nat
  email : String
  first_name : Option String
  last_name : Option String
deriving DecidableEq, Repr

/-- `projects` row. -/
structure Project where
  id : Nat
  name : String
  description : String
  created_by : Nat
  is_active : Bool
deriving DecidableEq, Repr

/-- `project_assignments` row; the table has `UNIQUE(project_id, user_id)`. -/
structure Assignment where
  project_id : Nat
  user_id : Nat
  assigned_by : Nat
deriving DecidableEq, Repr

/-- `time_entries` row.  `duration_minutes` is the STORED generated column;
it is carried in the row (as in the table) and recomputed by every write,
mirroring `GENERATED ALWAYS ... STORED` (a client write can never supply it). -/
structure TimeEntry where
  id : Nat
  user_id : Nat
  project_id : Nat
  description : String
  start_time : Int
  end_time : Option Int
  duration_minutes : Option Int
  is_running : Bool
deriving DecidableEq, Repr

/-- The durable store: one list per table.  `admins` is the set of user ids
having an `('admin')` row in `user_roles`. -/
structure DB where
  profiles : List Profile
  admins : List Nat
  projects : List Project
  assignments : List Assignment
  time_entries : List TimeEntry
deriving DecidableEq, Repr

/-- Postgres numeric-to-INTEGER cast of `secs / 60`: rounds half away from
zero. -/
def roundHalfAwayDiv60 (secs : Int) : Int :=
  if 0 ≤ secs then (2 * secs + 60) / 120 else -((2 * (-secs) + 60) / 120)

/-- The generated column `duration_minutes`: `EXTRACT(EPOCH FROM (end_time -
start_time)) / 60` cast to INTEGER when `end_time IS NOT NULL`, else NULL. -/
def durationMinutes (start_t : Int) : Option Int → Option Int
  | none => none
  | some end_t => some (roundHalfAwayDiv60 (end_t - start_t))

/-- `public.has_role(u, 'admin')`: a matching `user_roles` row exists. -/
def hasRoleAdmin (db : DB) (u : Nat) : Bool :=
  db.admins.contains u

/-- RLS SELECT on `projects` ("Users can view assigned projects", as fixed by
the later migration): an assignment for (project, actor) exists, or actor is
admin (the "Admins can manage projects" FOR ALL policy also grants SELECT). -/
def canViewProject (db : DB) (actor : Nat) (p : Project) : Bool :=
  db.assignments.any (fun a => a.project_id == p.id && a.user_id == actor)
    || hasRoleAdmin db actor

/-- RLS SELECT on `time_entries`: the OR of "Users can view their own time
entries" (`auth.uid() = user_id`) and "Admins can view all time entries". -/
def canViewTimeEntry (db : DB) (actor : Nat) (e : TimeEntry) : Bool :=
  actor == e.user_id || hasRoleAdmin db actor

/-- RLS INSERT on `time_entries`: the only INSERT policy is "Users can manage
their own time entries" WITH CHECK (`auth.uid() = user_id`); there is no
admin INSERT policy on this table. -/
def canInsertTimeEntry (actor : Nat) (e : TimeEntry) : Bool :=
  actor == e.user_id

/-- RLS UPDATE on `time_entries`: "Users can update their own time entries". -/
def canUpdateTimeEntry (actor : Nat) (e : TimeEntry) : Bool :=
  actor == e.user_id

/-- RLS SELECT on `project_assignments`: own row or admin. -/
def canViewAssignment (db : DB) (actor : Nat) (a : Assignment) : Bool :=
  actor == a.user_id || hasRoleAdmin db actor

/-- RLS SELECT on `profiles`: the only SELECT policy on this table is
"Users can view their own profile" (`auth.uid() = user_id`); there is no
admin SELECT policy on `profiles`. -/
def canViewProfile (actor : Nat) (p : Profile) : Bool :=
  actor == p.user_id

/-- Errors surfaced by the storage layer to the dashboard code: an RLS
policy rejection of a write, or a UNIQUE-constraint violation. -/
inductive StoreError where
  | rlsViolation : StoreError
  | uniqueViolation : StoreError
deriving DecidableEq, Repr

/-- `startTimer` (UserDashboard): inserts a row with `user_id = actor`,
`start_time = now`, `is_running = true`, no `end_time`.  The insert is gated
only by the RLS WITH CHECK; the schema has no uniqueness constraint over
`is_running` per user, so no running-timer check occurs here. -/
def startTimer (db : DB) (actor : Nat) (projectId : Nat) (descr : String)
    (now : Int) (newId : Nat) : Except StoreError DB :=
  let e : TimeEntry :=
    { id := newId, user_id := actor, project_id := projectId,
      description := descr, start_time := now, end_time := none,
      duration_minutes := durationMinutes now none, is_running := true }
  if canInsertTimeEntry actor e then
    Except.ok { db with time_entries := db.time_entries ++ [e] }
  else
    Except.error StoreError.rlsViolation

/-- `stopTimer` (UserDashboard): `UPDATE time_entries SET end_time = now,
is_running = false WHERE id = entryId`, with the RLS UPDATE policy limiting
the affected rows to the caller's own.  A Supabase update that matches zero
rows still succeeds, so the operation is total; the generated column is
recomputed on the updated row. -/
def stopTimer (db : DB) (actor : Nat) (entryId : Nat) (now : Int) : DB :=
  { db with
    time_entries := db.time_entries.map (fun e =>
      if e.id == entryId && canUpdateTimeEntry actor e then
        { e with end_time := some now,
                 duration_minutes := durationMinutes e.start_time (some now),
                 is_running := false }
      else e) }

/-- `createManualEntry` (UserDashboard): inserts a row with the form's
`start_time`/`end_time`, `is_running = false`; the component performs no
validation of the range, and the insert is gated only by the RLS WITH CHECK. -/
def createManualEntry (db : DB) (actor : Nat) (projectId : Nat) (descr : String)
    (startT endT : Int) (newId : Nat) : Except StoreError DB :=
  let e : TimeEntry :=
    { id := newId, user_id := actor, project_id := projectId,
      description := descr, start_time := startT, end_time := some endT,
      duration_minutes := durationMinutes startT (some endT),
      is_running := false }
  if canInsertTimeEntry actor e then
    Except.ok { db with time_entries := db.time_entries ++ [e] }
  else
    Except.error StoreError.rlsViolation

/-- `fetchTimeEntries` (UserDashboard): selects from `time_entries` under RLS
and inner-joins `projects!inner(name)`, which keeps an entry only when its
project row passes the actor's `projects` RLS SELECT policy.  The trailing
`order by start_time desc` only permutes the list and is not modelled. -/
def fetchTimeEntries (db : DB) (actor : Nat) : List TimeEntry :=
  (db.time_entries.filter (fun e => canViewTimeEntry db actor e)).filter
    (fun e => (db.projects.filter (fun p => canViewProject db actor p)).any
      (fun p => p.id == e.project_id))

/-- `fetchProjects` (UserDashboard): selects from `projects` under RLS with
the query filter `.eq('is_active', true)`. -/
def fetchProjects (db : DB) (actor : Nat) : List Project :=
  (db.projects.filter (fun p => canViewProject db actor p)).filter
    (fun p => p.is_active)

/-- `assignUserToProject` (AdminDashboard): inserts into
`project_assignments`; RLS "Admins can manage assignments" admits only admin
actors, and `UNIQUE(project_id, user_id)` rejects a duplicate pair with a
unique-constraint violation. -/
def assignUserToProject (db : DB) (actor : Nat) (projectId userId : Nat) :
    Except StoreError DB :=
  if hasRoleAdmin db actor then
    if db.assignments.any (fun a => a.project_id == projectId && a.user_id == userId) then
      Except.error StoreError.uniqueViolation
    else
      Except.ok { db with
        assignments := db.assignments ++
          [{ project_id := projectId, user_id := userId, assigned_by := actor }] }
  else
    Except.error StoreError.rlsViolation

/-- `toggleProjectStatus` (AdminDashboard): `UPDATE projects SET is_active =
NOT current WHERE id = projectId`; RLS "Admins can manage projects" limits
the update to admin actors (a non-admin's update matches no rows). -/
def toggleProjectStatus (db : DB) (actor : Nat) (projectId : Nat)
    (currentStatus : Bool) : DB :=
  if hasRoleAdmin db actor then
    { db with projects := db.projects.map (fun p =>
        if p.id == projectId then { p with is_active := !currentStatus } else p) }
  else
    db

/-- One row of the admin summary (`TimeEntrySummary` in AdminDashboard).
Hours are exact rationals standing for the JS number arithmetic. -/
structure TimeEntrySummary where
  user_id : Nat
  project_id : Nat
  total_hours : Rat
  user_name : String
  project_name : String
deriving DecidableEq, Repr

/-- The display name built in `fetchTimeEntriesSummary`:
`` `${first_name || ''} ${last_name || ''}`.trim() || email ``. -/
def displayName (p : Profile) : String :=
  let n := (p.first_name.getD "" ++ " " ++ p.last_name.getD "").trim
  if n == "" then p.email else n

/-- `(entry.duration_minutes || 0)` as a rational. -/
def durOrZero (d : Option Int) : Rat :=
  ((d.getD 0 : Int) : Rat)

/-- The body of the `forEach` in `fetchTimeEntriesSummary`: look the entry's
profile and project up in the maps; create the group on first sight (when
both lookups succeed) and add `duration_minutes / 60` to the group's total. -/
def summarizeStep (profiles : List Profile) (projects : List Project)
    (acc : List TimeEntrySummary) (e : TimeEntry) : List TimeEntrySummary :=
  match profiles.find? (fun p => p.user_id == e.user_id),
        projects.find? (fun p => p.id == e.project_id) with
  | some prof, some proj =>
    if acc.any (fun s => s.user_id == e.user_id && s.project_id == e.project_id) then
      acc.map (fun s =>
        if s.user_id == e.user_id && s.project_id == e.project_id then
          { s with total_hours := s.total_hours + durOrZero e.duration_minutes / 60 }
        else s)
    else
      acc ++ [{ user_id := e.user_id, project_id := e.project_id,
                total_hours := 0 + durOrZero e.duration_minutes / 60,
                user_name := displayName prof, project_name := proj.name }]
  | _, _ => acc

/-- `fetchTimeEntriesSummary` (AdminDashboard): three selects, each filtered
by its own RLS policies for the calling actor, then a pure fold into
per-(user, project) groups.  The `time_entries` select carries
`.not('duration_minutes', 'is', null)`; the `profiles` select passes only
the own-row policy (there is no admin SELECT policy on `profiles`), and the
`projects` select passes the assigned-or-admin policy. -/
def fetchTimeEntriesSummary (db : DB) (actor : Nat) : List TimeEntrySummary :=
  ((db.time_entries.filter (fun e => canViewTimeEntry db actor e)).filter
      (fun e => e.duration_minutes.isSome)).foldl
    (summarizeStep (db.profiles.filter (fun p => canViewProfile actor p))
      (db.projects.filter (fun q => canViewProject db actor q))) []

/-- States of the store reachable from a time-entry-free start through the
embedded mutations.  The non-time-entry tables of the start state are
arbitrary (provisioning of profiles, roles and projects is outside the four
source files). -/
inductive Reachable : DB → Prop where
  | init (db : DB) (h : db.time_entries = []) : Reachable db
  | start (db db' : DB) (actor projectId : Nat) (descr : String) (now : Int)
      (newId : Nat) (hdb : Reachable db)
      (h : startTimer db actor projectId descr now newId = Except.ok db') :
      Reachable db'
  | stop (db : DB) (actor entryId : Nat) (now : Int) (hdb : Reachable db) :
      Reachable (stopTimer db actor entryId now)
  | manual (db db' : DB) (actor projectId : Nat) (descr : String)
      (startT endT : Int) (newId : Nat) (hdb : Reachable db)
      (h : createManualEntry db actor projectId descr startT endT newId
            = Except.ok db') :
      Reachable db'
  | assign (db db' : DB) (actor projectId userId : Nat) (hdb : Reachable db)
      (h : assignUserToProject db actor projectId userId = Except.ok db') :
      Reachable db'
  | toggle (db : DB) (actor projectId : Nat) (currentStatus : Bool)
      (hdb : Reachable db) :
      Reachable (toggleProjectStatus db actor projectId currentStatus)

/-- `count(TimeEntry where user_id = u and is_running)` from the invariant. -/
def countRunning (db : DB) (u : Nat) : Nat :=
  (db.time_entries.filter (fun e => e.user_id == u && e.is_running)).length

/-- A store holding one project and nothing else. -/
def dbStart0 : DB :=
  { profiles := [], admins := [],
    projects := [{ id := 7, name := "P", description := "", created_by := 2,
                   is_active := true }],
    assignments := [], time_entries := [] }

/-- `dbStart0` after user 1 starts a timer on project 7 at time 0. -/
def dbStart1 : DB :=
  { dbStart0 with time_entries :=
      [{ id := 100, user_id := 1, project_id := 7, description := "",
         start_time := 0, end_time := none, duration_minutes := none,
         is_running := true }] }

/-- `dbStart1` after user 1 starts a second timer on project 7 at time 5. -/
def dbStart2 : DB :=
  { dbStart0 with time_entries :=
      [{ id := 100, user_id := 1, project_id := 7, description := "",
         start_time := 0, end_time := none, duration_minutes := none,
         is_running := true },
       { id := 101, user_id := 1, project_id := 7, description := "",
         start_time := 5, end_time := none, duration_minutes := none,
         is_running := true }] }

/-- C1: the code at the failing input.  With a running timer already present
for user 1, a second `startTimer` insert succeeds (the schema has no
uniqueness constraint over `is_running` per `user_id` and the component makes
no check), leaving two rows with `is_running = true` for the same user —
the claimed `ConflictError` never occurs. -/
theorem startTimer_second_running_accepted :
    startTimer dbStart0 1 7 "" 0 100 = Except.ok dbStart1 ∧
    startTimer dbStart1 1 7 "" 5 101 = Except.ok dbStart2 ∧
    countRunning dbStart2 1 = 2 :=
  ⟨rfl, rfl, rfl⟩

/-- Base store for the manual-entry boundary check. -/
def dbManual0 : DB :=
  { profiles := [], admins := [],
    projects := [{ id := 7, name := "P", description := "", created_by := 2,
                   is_active := true }],
    assignments := [], time_entries := [] }

/-- C2 counterexample: `createManualEntry` with `end_time = start_time`
succeeds and creates the entry (`duration_minutes = 0`), where the claim
requires rejection with a validation error and no entry created. -/
theorem createManualEntry_equal_bounds_accepted :
    createManualEntry dbManual0 1 7 "" 100 100 5 =
      Except.ok { dbManual0 with time_entries :=
        [{ id := 5, user_id := 1, project_id := 7, description := "",
           start_time := 100, end_time := some 100,
           duration_minutes := some 0, is_running := false }] } :=
  rfl

/-- C2 amended: `createManualEntry` performs no validation of the time
range.  For every store and every pair of bounds — equal, one second apart,
or even end before start — the insert succeeds, creating a non-running entry
whose `duration_minutes` is the generated value; one second yields 0. -/
theorem createManualEntry_no_validation (db : DB) (actor projectId : Nat)
    (descr : String) (startT endT : Int) (newId : Nat) :
    createManualEntry db actor projectId descr startT endT newId =
      Except.ok { db with time_entries := db.time_entries ++
        [{ id := newId, user_id := actor, project_id := projectId,
           description := descr, start_time := startT, end_time := some endT,
           duration_minutes := some (roundHalfAwayDiv60 (endT - startT)),
           is_running := false }] } ∧
    roundHalfAwayDiv60 (startT + 1 - startT) = 0 := by
  constructor
  · simp [createManualEntry, canInsertTimeEntry, durationMinutes]
  · norm_num [roundHalfAwayDiv60]

/-- Store holding a single already-stopped entry owned by user 1. -/
def dbStopped : DB :=
  { profiles := [], admins := [],
    projects := [{ id := 7, name := "P", description := "", created_by := 2,
                   is_active := true }],
    assignments := [],
    time_entries := [{ id := 5, user_id := 1, project_id := 7,
                       description := "", start_time := 0,
                       end_time := some 60, duration_minutes := some 1,
                       is_running := false }] }

/-- C3 counterexample: `stopTimer` on an entry that is already stopped
(`is_running = false`) does not fail with `NotRunningError` — it succeeds
and rewrites the entry's `end_time` (and hence `duration_minutes`), so an
entry is modified in what the claim calls a failure case. -/
theorem stopTimer_overwrites_stopped_entry :
    (dbStopped.time_entries.all (fun e => !e.is_running)) = true ∧
    stopTimer dbStopped 1 5 600 =
      { dbStopped with time_entries :=
          [{ id := 5, user_id := 1, project_id := 7, description := "",
             start_time := 0, end_time := some 600,
             duration_minutes := some 10, is_running := false }] } ∧
    stopTimer dbStopped 1 5 600 ≠ dbStopped :=
  ⟨rfl, rfl, by decide⟩

/-- C3 amended: `stopTimer` is an unconditional filtered update.  Every
entry matched by id and owned by the caller — running or not — gets
`end_time = now`, `is_running = false` and the recomputed duration; every
other entry is untouched; and when no owned entry matches, the call
succeeds leaving the store unchanged (no `NotFoundError`, no
`NotRunningError` exist in this code path). -/
theorem map_eq_self_of_forall {α : Type} (f : α → α) (l : List α)
    (h : ∀ a ∈ l, f a = a) : l.map f = l := by
  induction l with
  | nil => rfl
  | cons a t ih =>
    simp only [List.map_cons]
    rw [h a (List.mem_cons_self a t), ih (fun x hx => h x (List.mem_cons_of_mem a hx))]

theorem stopTimer_unconditional_update (db : DB) (actor entryId : Nat)
    (now : Int) :
    (∀ e ∈ db.time_entries, e.id = entryId → e.user_id = actor →
        { e with end_time := some now,
                 duration_minutes := durationMinutes e.start_time (some now),
                 is_running := false } ∈ (stopTimer db actor entryId now).time_entries) ∧
    (∀ e ∈ db.time_entries, ¬(e.id = entryId ∧ e.user_id = actor) →
        e ∈ (stopTimer db actor entryId now).time_entries) ∧
    (db.time_entries.all (fun e => !(e.id == entryId && e.user_id == actor)) = true →
        stopTimer db actor entryId now = db) := by
  refine ⟨?_, ?_, ?_⟩
  · intro e he hid huser
    simp only [stopTimer, List.mem_map]
    refine ⟨e, he, ?_⟩
    simp [canUpdateTimeEntry, hid, huser]
  · intro e he hne
    simp only [stopTimer, List.mem_map]
    refine ⟨e, he, ?_⟩
    have hcond : (e.id == entryId && canUpdateTimeEntry actor e) = false := by
      cases hid : e.id == entryId with
      | false => simp
      | true =>
        cases hu : canUpdateTimeEntry actor e with
        | false => simp
        | true =>
          simp only [canUpdateTimeEntry, beq_iff_eq] at hid hu
          exact absurd ⟨hid, hu.symm⟩ hne
    simp [hcond]
  · intro hall
    have hfix : ∀ e ∈ db.time_entries,
        (if e.id == entryId && canUpdateTimeEntry actor e then
          { e with end_time := some now,
                   duration_minutes := durationMinutes e.start_time (some now),
                   is_running := false }
        else e) = e := by
      intro e he
      have h1 := List.all_eq_true.mp hall e he
      have h2 : (e.id == entryId && canUpdateTimeEntry actor e) = false := by
        cases hid : e.id == entryId with
        | false => simp
        | true =>
          cases hu : canUpdateTimeEntry actor e with
          | false => simp
          | true =>
            exfalso
            simp only [canUpdateTimeEntry, beq_iff_eq] at hu
            rw [hid] at h1
            rw [hu] at h1
            simp at h1
      simp [h2]
    show { db with time_entries := _ } = db
    rw [map_eq_self_of_forall _ _ hfix]

/-- Store with a running entry owned by user 1, for exercising `stopTimer`. -/
def dbStopW : DB :=
  { profiles := [], admins := [],
    projects := [{ id := 7, name := "P", description := "", created_by := 2,
                   is_active := true }],
    assignments := [],
    time_entries := [{ id := 5, user_id := 1, project_id := 7,
                       description := "", start_time := 0, end_time := none,
                       duration_minutes := none, is_running := true }] }

/-- The running entry held in `dbStopW`. -/
def entryStopW : TimeEntry :=
  { id := 5, user_id := 1, project_id := 7, description := "",
    start_time := 0, end_time := none, duration_minutes := none,
    is_running := true }

/-- Witness for the amended C3 statement at a concrete store. -/
theorem stopTimer_unconditional_update_witness :
    ({ entryStopW with
       end_time := some 60,
       duration_minutes := durationMinutes entryStopW.start_time (some 60),
       is_running := false } : TimeEntry) ∈
      (stopTimer dbStopW 1 5 60).time_entries :=
  (stopTimer_unconditional_update dbStopW 1 5 60).1 entryStopW (by decide)
    (by decide) (by decide)

/-- C10: every project in the list fetched for the user dashboard has
`is_active = true` — `fetchProjects` filters with `.eq('is_active', true)`,
so deactivated projects never reach the timer or manual-entry selectors,
assigned or not. -/
theorem fetchProjects_only_active (db : DB) (actor : Nat) (p : Project)
    (hp : p ∈ fetchProjects db actor) : p.is_active = true := by
  simp only [fetchProjects, List.mem_filter] at hp
  exact hp.2

/-- Store with an active and an inactive project, user 1 assigned to both. -/
def dbProjW : DB :=
  { profiles := [], admins := [],
    projects := [{ id := 7, name := "P", description := "", created_by := 2,
                   is_active := true },
                 { id := 8, name := "Q", description := "", created_by := 2,
                   is_active := false }],
    assignments := [{ project_id := 7, user_id := 1, assigned_by := 2 },
                    { project_id := 8, user_id := 1, assigned_by := 2 }],
    time_entries := [] }

/-- Witness for C10 at a concrete store. -/
theorem fetchProjects_only_active_witness :
    ({ id := 7, name := "P", description := "", created_by := 2,
       is_active := true } : Project).is_active = true :=
  fetchProjects_only_active dbProjW 1
    { id := 7, name := "P", description := "", created_by := 2,
      is_active := true } (by decide)

/-- C7: an admin's reads of projects, assignments and time entries are all
allowed with no assignment check (the store is arbitrary, in particular its
assignment table may be empty), while inserting a time entry whose
`user_id` differs from the admin is denied — the only INSERT policy on
`time_entries` checks `auth.uid() = user_id`. -/
theorem admin_reads_all_but_cannot_fabricate (db : DB) (a : Nat)
    (ha : hasRoleAdmin db a = true) :
    (∀ p ∈ db.projects, canViewProject db a p = true) ∧
    (∀ asg ∈ db.assignments, canViewAssignment db a asg = true) ∧
    (∀ e ∈ db.time_entries, canViewTimeEntry db a e = true) ∧
    (∀ e : TimeEntry, e.user_id ≠ a → canInsertTimeEntry a e = false) := by
  refine ⟨?_, ?_, ?_, ?_⟩
  · intro p _
    simp [canViewProject, ha]
  · intro asg _
    simp [canViewAssignment, ha]
  · intro e _
    simp [canViewTimeEntry, ha]
  · intro e hne
    simp only [canInsertTimeEntry, beq_eq_false_iff_ne, ne_eq]
    exact fun h => hne h.symm

/-- Store with admin 2 and a time entry owned by user 1, no assignments. -/
def dbAdminW : DB :=
  { profiles := [], admins := [2],
    projects := [{ id := 7, name := "P", description := "", created_by := 2,
                   is_active := false }],
    assignments := [],
    time_entries := [{ id := 5, user_id := 1, project_id := 7,
                       description := "", start_time := 0, end_time := some 60,
                       duration_minutes := some 1, is_running := false }] }

/-- Witness for C7 at a concrete store: admin 2 may read user 1's entry and
the unassigned project, but may not insert an entry owned by user 1. -/
theorem admin_reads_all_but_cannot_fabricate_witness :
    canViewTimeEntry dbAdminW 2
      { id := 5, user_id := 1, project_id := 7, description := "",
        start_time := 0, end_time := some 60, duration_minutes := some 1,
        is_running := false } = true ∧
    canViewProject dbAdminW 2
      { id := 7, name := "P", description := "", created_by := 2,
        is_active := false } = true ∧
    canInsertTimeEntry 2
      { id := 6, user_id := 1, project_id := 7, description := "",
        start_time := 0, end_time := none, duration_minutes := none,
        is_running := true } = false :=
  ⟨(admin_reads_all_but_cannot_fabricate dbAdminW 2 (by decide)).2.2.1 _
      (by decide),
   (admin_reads_all_but_cannot_fabricate dbAdminW 2 (by decide)).1 _
      (by decide),
   (admin_reads_all_but_cannot_fabricate dbAdminW 2 (by decide)).2.2.2 _
      (by decide)⟩

/-- C8: `assignUserToProject` under an admin actor.  When an assignment for
the (project, user) pair already exists the insert fails with the
unique-constraint violation (the store is unchanged: the error branch
returns no new store); when none exists the row is inserted and the pair
occurs exactly once afterwards. -/
theorem assignUser_duplicate_rejected (db : DB) (actor projectId userId : Nat)
    (ha : hasRoleAdmin db actor = true) :
    (db.assignments.any
        (fun a => a.project_id == projectId && a.user_id == userId) = true →
      assignUserToProject db actor projectId userId =
        Except.error StoreError.uniqueViolation) ∧
    (db.assignments.any
        (fun a => a.project_id == projectId && a.user_id == userId) = false →
      assignUserToProject db actor projectId userId =
        Except.ok { db with assignments := db.assignments ++
          [{ project_id := projectId, user_id := userId,
             assigned_by := actor }] } ∧
      (db.assignments ++
          [({ project_id := projectId, user_id := userId,
              assigned_by := actor } : Assignment)]).countP
        (fun a => a.project_id == projectId && a.user_id == userId) = 1) := by
  constructor
  · intro hdup
    simp [assignUserToProject, ha, hdup]
  · intro hnone
    refine ⟨by simp [assignUserToProject, ha, hnone], ?_⟩
    rw [List.countP_append]
    have h0 : db.assignments.countP
        (fun a => a.project_id == projectId && a.user_id == userId) = 0 := by
      rw [List.countP_eq_zero]
      intro a hamem
      have := List.any_eq_false.mp hnone a hamem
      simpa using this
    rw [h0]
    simp

/-- Store with admin 2 and one assignment of user 1 to project 7. -/
def dbAssignW : DB :=
  { profiles := [], admins := [2],
    projects := [{ id := 7, name := "P", description := "", created_by := 2,
                   is_active := true }],
    assignments := [{ project_id := 7, user_id := 1, assigned_by := 2 }],
    time_entries := [] }

/-- Witness for C8 at a concrete store: re-assigning the existing pair is
rejected with the unique-constraint violation. -/
theorem assignUser_duplicate_rejected_witness :
    assignUserToProject dbAssignW 2 7 1 =
      Except.error StoreError.uniqueViolation :=
  (assignUser_duplicate_rejected dbAssignW 2 7 1 (by decide)).1 (by decide)

/-- Introduction rule for membership in the `fetchTimeEntries` result: the
entry passes the `time_entries` RLS filter and its project row passes the
`projects` RLS filter of the inner join. -/
theorem mem_fetchTimeEntries (db : DB) (actor : Nat) (e : TimeEntry)
    (he : e ∈ db.time_entries)
    (hview : canViewTimeEntry db actor e = true)
    (hp : ∃ p ∈ db.projects, p.id = e.project_id ∧
      canViewProject db actor p = true) :
    e ∈ fetchTimeEntries db actor := by
  simp only [fetchTimeEntries, List.mem_filter]
  obtain ⟨p, hpmem, hpid, hpview⟩ := hp
  refine ⟨⟨he, hview⟩, ?_⟩
  rw [List.any_eq_true]
  exact ⟨p, List.mem_filter.mpr ⟨hpmem, hpview⟩, by simp [hpid]⟩

/-- C4: server-side scoping of ListEntries.  A non-admin's result contains
only entries with `user_id = actor` (the RLS SELECT policy passes only own
rows); an admin's result contains every stored entry whose project row
exists (the foreign key guarantees that), i.e. entries of all users. -/
theorem listEntries_scoping (db : DB) (actor : Nat) :
    (hasRoleAdmin db actor = false →
      ∀ e ∈ fetchTimeEntries db actor, e.user_id = actor) ∧
    (hasRoleAdmin db actor = true →
      ∀ e ∈ db.time_entries, (∃ p ∈ db.projects, p.id = e.project_id) →
        e ∈ fetchTimeEntries db actor) := by
  constructor
  · intro hna e he
    simp only [fetchTimeEntries, List.mem_filter] at he
    have hv := he.1.2
    simp only [canViewTimeEntry, hna, Bool.or_false, beq_iff_eq] at hv
    exact hv.symm
  · intro ha e he hp
    obtain ⟨p, hpmem, hpid⟩ := hp
    refine mem_fetchTimeEntries db actor e he ?_ ⟨p, hpmem, hpid, ?_⟩
    · simp [canViewTimeEntry, ha]
    · simp [canViewProject, ha]

/-- Store with admin 3 and entries of users 1 and 2, both assigned. -/
def dbScopeW : DB :=
  { profiles := [], admins := [3],
    projects := [{ id := 7, name := "P", description := "", created_by := 3,
                   is_active := true }],
    assignments := [{ project_id := 7, user_id := 1, assigned_by := 3 },
                    { project_id := 7, user_id := 2, assigned_by := 3 }],
    time_entries := [{ id := 5, user_id := 1, project_id := 7,
                       description := "", start_time := 0, end_time := some 60,
                       duration_minutes := some 1, is_running := false },
                     { id := 6, user_id := 2, project_id := 7,
                       description := "", start_time := 0, end_time := some 120,
                       duration_minutes := some 2, is_running := false }] }

/-- Witness for C4 at a concrete store: user 1's single fetched entry is
their own, and the admin's fetch contains user 2's entry. -/
theorem listEntries_scoping_witness :
    ({ id := 5, user_id := 1, project_id := 7, description := "",
       start_time := 0, end_time := some 60, duration_minutes := some 1,
       is_running := false } : TimeEntry).user_id = 1 ∧
    ({ id := 6, user_id := 2, project_id := 7, description := "",
       start_time := 0, end_time := some 120, duration_minutes := some 2,
       is_running := false } : TimeEntry) ∈ fetchTimeEntries dbScopeW 3 :=
  ⟨(listEntries_scoping dbScopeW 1).1 (by decide) _ (by decide),
   (listEntries_scoping dbScopeW 3).2 (by decide) _ (by decide) (by decide)⟩

/-- Store where user 1 owns an entry on project 7 but holds no assignment. -/
def dbUnassigned : DB :=
  { profiles := [], admins := [],
    projects := [{ id := 7, name := "P", description := "", created_by := 2,
                   is_active := true }],
    assignments := [],
    time_entries := [{ id := 5, user_id := 1, project_id := 7,
                       description := "", start_time := 0, end_time := some 60,
                       duration_minutes := some 1, is_running := false }] }

/-- C5 counterexample: user 1 owns the only stored entry, yet their fetch
returns nothing — `fetchTimeEntries` inner-joins the RLS-filtered `projects`
table, and with no assignment the project row is invisible to user 1, so
the own entry is dropped, contradicting "readable regardless of whether an
Assignment exists". -/
theorem ownEntry_dropped_without_assignment :
    (dbUnassigned.time_entries.all (fun e => e.user_id == 1)) = true ∧
    dbUnassigned.time_entries ≠ [] ∧
    fetchTimeEntries dbUnassigned 1 = [] := by
  decide

/-- C5 amended: a non-admin's own entry stays in the ListEntries result as
long as an Assignment for its project exists for that user — regardless of
the project's `is_active` flag, including after an admin deactivates the
project — and stays in the admin's result as well; without an assignment
the inner join with the RLS-filtered `projects` table drops it. -/
theorem ownEntries_visible_when_assigned (db : DB) (u adm : Nat)
    (e : TimeEntry) (he : e ∈ db.time_entries) (hu : e.user_id = u)
    (ha : ∃ a ∈ db.assignments, a.project_id = e.project_id ∧ a.user_id = u)
    (hp : ∃ p ∈ db.projects, p.id = e.project_id)
    (hadm : hasRoleAdmin db adm = true) (pid : Nat) (cur : Bool) :
    e ∈ fetchTimeEntries db u ∧
    e ∈ fetchTimeEntries db adm ∧
    e ∈ fetchTimeEntries (toggleProjectStatus db adm pid cur) u ∧
    e ∈ fetchTimeEntries (toggleProjectStatus db adm pid cur) adm := by
  obtain ⟨a, hamem, haid, hau⟩ := ha
  obtain ⟨p, hpmem, hpid⟩ := hp
  have htog : toggleProjectStatus db adm pid cur =
      { db with projects := db.projects.map (fun q =>
          if q.id == pid then { q with is_active := !cur } else q) } := by
    simp [toggleProjectStatus, hadm]
  have hviewu : ∀ d : DB, canViewTimeEntry d u e = true := by
    intro d
    simp [canViewTimeEntry, hu]
  have hvassign : ∀ d : DB, d.assignments = db.assignments →
      canViewProject d u p = true := by
    intro d hd
    simp only [canViewProject, Bool.or_eq_true, List.any_eq_true]
    left
    exact ⟨a, by rw [hd]; exact hamem, by simp [haid, hau, hpid]⟩
  have hvassign2 : ∀ d : DB, d.assignments = db.assignments →
      ∀ q : Project, q.id = p.id → canViewProject d u q = true := by
    intro d hd q hq
    simp only [canViewProject, Bool.or_eq_true, List.any_eq_true]
    left
    exact ⟨a, by rw [hd]; exact hamem, by simp [haid, hau, hq, hpid]⟩
  have hpid2 : ∀ q : Project,
      (if q.id == pid then { q with is_active := !cur } else q).id = q.id := by
    intro q
    by_cases hq : q.id == pid <;> simp [hq]
  refine ⟨?_, ?_, ?_, ?_⟩
  · exact mem_fetchTimeEntries db u e he (hviewu db)
      ⟨p, hpmem, hpid, hvassign db rfl⟩
  · exact mem_fetchTimeEntries db adm e he (by simp [canViewTimeEntry, hadm])
      ⟨p, hpmem, hpid, by simp [canViewProject, hadm]⟩
  · rw [htog]
    refine mem_fetchTimeEntries _ u e he (hviewu _)
      ⟨if p.id == pid then { p with is_active := !cur } else p,
       List.mem_map_of_mem _ hpmem, ?_, ?_⟩
    · rw [hpid2 p]
      exact hpid
    · exact hvassign2 _ rfl _ (hpid2 p)
  · rw [htog]
    refine mem_fetchTimeEntries _ adm e he
      (by simp [canViewTimeEntry, hasRoleAdmin] at hadm ⊢; simp [hadm])
      ⟨if p.id == pid then { p with is_active := !cur } else p,
       List.mem_map_of_mem _ hpmem, ?_, ?_⟩
    · rw [hpid2 p]
      exact hpid
    · simp only [canViewProject, Bool.or_eq_true]
      right
      simpa [hasRoleAdmin] using hadm

/-- The entry owned by user 1 in `dbAssignedVisW`. -/
def entryVisW : TimeEntry :=
  { id := 5, user_id := 1, project_id := 7, description := "",
    start_time := 0, end_time := some 60, duration_minutes := some 1,
    is_running := false }

/-- Store with admin 3, user 1 assigned to project 7 and owning one entry. -/
def dbAssignedVisW : DB :=
  { profiles := [], admins := [3],
    projects := [{ id := 7, name := "P", description := "", created_by := 3,
                   is_active := true }],
    assignments := [{ project_id := 7, user_id := 1, assigned_by := 3 }],
    time_entries := [entryVisW] }

/-- Witness for the amended C5 statement: the entry stays visible to user 1
and admin 3 before and after the admin deactivates project 7. -/
theorem ownEntries_visible_when_assigned_witness :
    entryVisW ∈ fetchTimeEntries dbAssignedVisW 1 ∧
    entryVisW ∈ fetchTimeEntries dbAssignedVisW 3 ∧
    entryVisW ∈ fetchTimeEntries (toggleProjectStatus dbAssignedVisW 3 7 true) 1 ∧
    entryVisW ∈ fetchTimeEntries (toggleProjectStatus dbAssignedVisW 3 7 true) 3 :=
  ownEntries_visible_when_assigned dbAssignedVisW 1 3 entryVisW (by decide)
    (by decide) (by decide) (by decide) (by decide) 7 true

/-- C6: in every store reachable through the embedded operations, each
entry's `duration_minutes` equals the generated value — the rounded whole
minutes of `end_time - start_time` when `end_time` is set — and is null
whenever `end_time` is unset or the entry is running.  No operation supplies
the column: every write recomputes it, mirroring `GENERATED ALWAYS ...
STORED`. -/
theorem duration_always_derived (db : DB) (h : Reachable db) :
    ∀ e ∈ db.time_entries,
      e.duration_minutes = durationMinutes e.start_time e.end_time ∧
      (e.is_running = true ∨ e.end_time = none →
        e.duration_minutes = none) := by
  induction h with
  | init d hd =>
    intro e he
    rw [hd] at he
    cases he
  | start d d' actor projectId descr now newId hdb hok ih =>
    simp only [startTimer, canInsertTimeEntry, beq_self_eq_true,
      if_true] at hok
    injection hok with hok
    intro e he
    rw [← hok] at he
    rcases List.mem_append.mp he with h1 | h2
    · exact ih e h1
    · rw [List.mem_singleton] at h2
      subst h2
      exact ⟨rfl, fun _ => rfl⟩
  | stop d actor entryId now hdb ih =>
    intro e' he'
    simp only [stopTimer, List.mem_map] at he'
    obtain ⟨e, he, hfe⟩ := he'
    split at hfe
    · rw [← hfe]
      refine ⟨rfl, ?_⟩
      intro hc
      rcases hc with hc | hc <;> simp at hc
    · rw [← hfe]
      exact ih e he
  | manual d d' actor projectId descr startT endT newId hdb hok ih =>
    simp only [createManualEntry, canInsertTimeEntry, beq_self_eq_true,
      if_true] at hok
    injection hok with hok
    intro e he
    rw [← hok] at he
    rcases List.mem_append.mp he with h1 | h2
    · exact ih e h1
    · rw [List.mem_singleton] at h2
      subst h2
      refine ⟨rfl, ?_⟩
      intro hc
      rcases hc with hc | hc <;> simp at hc
  | assign d d' actor projectId userId hdb hok ih =>
    have hte : d'.time_entries = d.time_entries := by
      simp only [assignUserToProject] at hok
      split at hok
      · split at hok
        · exact Except.noConfusion hok
        · injection hok with hok
          rw [← hok]
      · exact Except.noConfusion hok
    intro e he
    rw [hte] at he
    exact ih e he
  | toggle d actor projectId cur hdb ih =>
    have hte : (toggleProjectStatus d actor projectId cur).time_entries =
        d.time_entries := by
      unfold toggleProjectStatus
      split <;> rfl
    intro e he
    rw [hte] at he
    exact ih e he

/-- The empty store. -/
def dbReach0 : DB :=
  { profiles := [], admins := [], projects := [], assignments := [],
    time_entries := [] }

/-- The manual entry created in `dbReach1` (90 seconds round to 2 minutes). -/
def entryReach : TimeEntry :=
  { id := 9, user_id := 1, project_id := 7, description := "",
    start_time := 0, end_time := some 90, duration_minutes := some 2,
    is_running := false }

/-- `dbReach0` after user 1 creates a manual entry over 90 seconds. -/
def dbReach1 : DB :=
  { dbReach0 with time_entries := [entryReach] }

/-- Witness for C6 at a store reached by one `createManualEntry` call. -/
theorem duration_always_derived_witness :
    entryReach.duration_minutes =
        durationMinutes entryReach.start_time entryReach.end_time ∧
    (entryReach.is_running = true ∨ entryReach.end_time = none →
        entryReach.duration_minutes = none) :=
  duration_always_derived dbReach1
    (Reachable.manual dbReach0 dbReach1 1 7 "" 0 90 9
      (Reachable.init dbReach0 rfl) rfl)
    entryReach (by decide)


/-- Profile row of regular user 1 in the C9 failing store. -/
def profSum1 : Profile :=
  { user_id := 1, email := "a", first_name := none, last_name := none }

/-- Profile row of admin 2 in the C9 failing store. -/
def profSum2 : Profile :=
  { user_id := 2, email := "b", first_name := none, last_name := none }

/-- Store for the C9 failing input: admin 2, a completed half-hour entry of
user 1 and a completed one-hour entry of admin 2, both profiles present in
the `profiles` table. -/
def dbSumX : DB :=
  { profiles := [profSum1, profSum2],
    admins := [2],
    projects := [{ id := 7, name := "P", description := "", created_by := 2,
                   is_active := true }],
    assignments := [],
    time_entries :=
      [{ id := 5, user_id := 1, project_id := 7, description := "",
         start_time := 0, end_time := some 1800, duration_minutes := some 30,
         is_running := false },
       { id := 6, user_id := 2, project_id := 7, description := "",
         start_time := 0, end_time := some 3600, duration_minutes := some 60,
         is_running := false }] }

/-- C9 at the failing input: admin 2 runs the summary.  User 1's completed
entry is among the entries the admin's `time_entries` select returns, and
user 1's profile row exists in the `profiles` table, yet the summary
contains no group for user 1: the admin's `profiles` select passes only the
own-row SELECT policy, so the profile lookup in the grouping loop fails and
the entry is silently skipped, while the admin's own entry is grouped
normally.  All other users' hours are dropped from the report the admin
dashboard is built to show. -/
theorem summary_drops_other_users :
    ((dbSumX.time_entries.filter (fun e => canViewTimeEntry dbSumX 2 e)).filter
        (fun e => e.duration_minutes.isSome)).any
      (fun e => e.user_id == 1) = true ∧
    dbSumX.profiles.any (fun p => p.user_id == 1) = true ∧
    (fetchTimeEntriesSummary dbSumX 2).any (fun s => s.user_id == 1) = false ∧
    (fetchTimeEntriesSummary dbSumX 2).any (fun s => s.user_id == 2) = true := by
  decide

end Minutron
